import Mathlib

/-
Verification of the edit-reconciliation and backend-synchronization core of
the business-card OCR frontend (src/app.py), as a shallow embedding in Lean.

Modelling conventions:
* A cell / payload value is a `Value`: Python `None`, a string, or a list of
  strings (the only list values the app handles are lists of strings).
* Python dicts that the app builds by iterating an input dict (so keys stay
  unique and ordered) are modelled as association lists `List (String × Value)`.
* Python `str.split(",")`, `str.strip()` and `", ".join(...)` are embedded
  at the character-list level, faithful to CPython semantics for the
  character sets involved.
* Network effects are modelled by passing in the outcome of the HTTP request
  (`HttpOutcome` / `FetchOutcome`): a status/body/text response, or a
  transport fault (the exception path of `requests`).
-/

/-- A Python value as handled by the app: None, a string, or a list of strings. -/
inductive Value where
  | null : Value
  | str (s : String) : Value
  | list (xs : List String) : Value
deriving DecidableEq, Repr

/-- Python whitespace characters recognised by `str.strip()` (ASCII subset;
the app only ever handles ASCII whitespace in these fields). -/
def isPySpace (c : Char) : Bool :=
  c = ' ' || c = '\t' || c = '\n' || c = '\r' || c = '\x0b' || c = '\x0c'

/-- Python `str.strip()` on a character list: drop leading and trailing whitespace. -/
def stripChars (cs : List Char) : List Char :=
  ((cs.dropWhile isPySpace).reverse.dropWhile isPySpace).reverse

/-- Python `s.split(",")` on a character list: split at every comma, keeping
empty fragments; the empty string splits to `[""]`. -/
def splitCommaChars : List Char → List (List Char)
  | [] => [[]]
  | c :: rest =>
    match splitCommaChars rest with
    | [] => [[]]
    | h :: t => if c = ',' then [] :: h :: t else (c :: h) :: t

/-- Python `", ".join(pieces)` on character lists. -/
def joinChars : List (List Char) → List Char
  | [] => []
  | [x] => x
  | x :: y :: t => x ++ ',' :: ' ' :: joinChars (y :: t)

/-- Python `repr` of a string, as used inside `str` of a list of strings
(faithful for strings free of quotes and escapes, which is all the app has). -/
def pyReprStr (s : String) : String := "'" ++ s ++ "'"

/-- Python `str(v)` for the values the app handles. -/
def pyStr (v : Value) : String :=
  match v with
  | Value.null => "None"
  | Value.str s => s
  | Value.list xs => "[" ++ String.intercalate ", " (xs.map pyReprStr) ++ "]"

/-- Source `list_to_csv_str` (src/app.py lines 42-45): join a list with ", ",
map None to the empty string, pass any other value through unchanged. -/
def list_to_csv_str (v : Value) : Value :=
  match v with
  | Value.list xs => Value.str (String.mk (joinChars (xs.map String.data)))
  | Value.null => Value.str ""
  | Value.str s => Value.str s

/-- Source `csv_str_to_list` (src/app.py lines 47-50): None gives the empty
list; otherwise stringify, split on ",", keep the fragments that are
non-empty after stripping, stripped. -/
def csv_str_to_list (v : Value) : List String :=
  match v with
  | Value.null => []
  | _ =>
    ((splitCommaChars (pyStr v).data).filter
        (fun cs => !(stripChars cs).isEmpty)).map
      (fun cs => String.mk (stripChars cs))

/-- The two list-typed field names (src/app.py line 64 and 474). -/
def listFields (k : String) : Bool :=
  k = "phone_numbers" || k = "social_links"

/-- Python `isinstance(v, str) and v.strip() == ""` (src/app.py line 62). -/
def isBlankString (v : Value) : Bool :=
  match v with
  | Value.str s => (stripChars s.data).isEmpty
  | _ => false

/-- The value stored by `_clean_payload_for_backend` for a surviving entry:
list-typed fields keep an existing list or coerce via `csv_str_to_list`,
all other fields pass through unchanged (src/app.py lines 64-70). -/
def cleanValue (k : String) (v : Value) : Value :=
  if listFields k then
    match v with
    | Value.list xs => Value.list xs
    | w => Value.list (csv_str_to_list w)
  else v

/-- One iteration of the `_clean_payload_for_backend` loop body
(src/app.py lines 59-70): skip None, skip blank strings, otherwise store
the cleaned value under the same key. -/
def clean_entry (kv : String × Value) : Option (String × Value) :=
  if kv.snd = Value.null then none
  else if isBlankString kv.snd then none
  else some (kv.fst, cleanValue kv.fst kv.snd)

/-- Source `_clean_payload_for_backend` (src/app.py lines 57-71). The Python
loop fills a fresh dict from an input dict, so keys are unique and insertion
order is iteration order: the dict build is a `filterMap`. -/
def _clean_payload_for_backend (payload : List (String × Value)) : List (String × Value) :=
  payload.filterMap clean_entry

example : csv_str_to_list (Value.str "123, 456 ,, 789") = ["123", "456", "789"] := by decide
example : list_to_csv_str (Value.list ["1", "2"]) = Value.str "1, 2" := by decide
example : _clean_payload_for_backend
    [("name", Value.str ""), ("company", Value.null), ("email", Value.str "a@b.com")]
    = [("email", Value.str "a@b.com")] := by decide

/-
Snapshot Diff Engine and Reconciliation Driver (src/app.py lines 336-496).
A row of the display grid is an association list from column name to cell
value; the pandas frame is rectangular, so a missing column only arises
through our total lookup, which returns null and is then treated as "" by
the isna replacement, matching both pandas and the spec.
-/

/-- A grid row: column name to cell value. -/
abbrev Row := List (String × Value)

/-- Read a cell by column name; absent columns read as null. -/
def getCell (row : Row) (col : String) : Value :=
  (row.lookup col).getD Value.null

/-- Python `"" if pd.isna(x) else x` (src/app.py lines 470-471):
replace a missing value by the empty string, keep everything else. -/
def naToEmpty (v : Value) : Value :=
  match v with
  | Value.null => Value.str ""
  | w => w

/-- The value the diff loop stores for a changed column (src/app.py
lines 473-478): the two list-typed columns go through `csv_str_to_list`,
every other column stores the (isna-replaced) edited cell verbatim. -/
def changeValue (col : String) (n : Value) : Value :=
  if listFields col then Value.list (csv_str_to_list n) else n

/-- The per-row diff of the save loop (src/app.py lines 468-478): for each
column of the display frame, compare the stringified isna-replaced cells,
and record the changed columns with their new values. -/
def rowChangeSet (cols : List String) (orig edited : Row) : List (String × Value) :=
  cols.filterMap (fun col =>
    if pyStr (naToEmpty (getCell orig col)) = pyStr (naToEmpty (getCell edited col)) then
      none
    else
      some (col, changeValue col (naToEmpty (getCell edited col))))

/-- One row of the table-level diff: the change set of the row paired with
its index when non-empty, nothing otherwise (src/app.py lines 468-480). -/
def diff_entry (cols : List String) (orig edited : List Row) (i : Nat) :
    Option (Nat × List (String × Value)) :=
  let cs := rowChangeSet cols (orig.getD i []) (edited.getD i [])
  if cs.isEmpty then none else some (i, cs)

/-- The table-level diff the save loop computes (src/app.py lines 464-480):
for each row index, the non-empty per-row change sets, in ascending order. -/
def snapshotDiff (cols : List String) (orig edited : List Row) :
    List (Nat × List (String × Value)) :=
  (List.range edited.length).filterMap (diff_entry cols orig edited)

/-- The display frame columns: the fetched frame columns with `_id` dropped
(src/app.py lines 349-350); the diff loop iterates exactly these. -/
def display_columns (cols : List String) : List String :=
  cols.filter (fun c => c ≠ "_id")

/-- Outcome of one HTTP request, as seen by the client code: a response
with status, parsed-JSON body (none when `r.json()` raises) and raw text,
or a transport fault (the exception path of `requests`). -/
inductive HttpOutcome where
  | response (status : Nat) (jsonBody : Option Value) (text : String) : HttpOutcome
  | fault (msg : String) : HttpOutcome
deriving DecidableEq, Repr

/-- Source `patch_card` (src/app.py lines 83-97), parametrised by the
network behaviour `net`, a function from the JSON body actually sent to the
HTTP outcome. The payload is cleaned by `_clean_payload_for_backend` before
sending; success is exactly status 200 or 201; a non-2xx response reports
the parsed error body when available, else the raw text; a transport fault
is caught and reported as `(false, message)`. -/
def patch_card (net : List (String × Value) → HttpOutcome)
    (payload : List (String × Value)) : Bool × String :=
  match net (_clean_payload_for_backend payload) with
  | HttpOutcome.fault e => (false, e)
  | HttpOutcome.response status jsonBody text =>
    if status = 200 ∨ status = 201 then (true, "Updated")
    else
      match jsonBody with
      | some err => (false, "Failed: " ++ pyStr err)
      | none => (false, "Failed: " ++ text)

/-- Source `delete_card` (src/app.py lines 99-113) applied to the outcome of
its DELETE request: success is exactly status 200 or 204; non-2xx and
transport faults become `(false, message)`. -/
def delete_card (outcome : HttpOutcome) : Bool × String :=
  match outcome with
  | HttpOutcome.fault e => (false, e)
  | HttpOutcome.response status jsonBody text =>
    if status = 200 ∨ status = 204 then (true, "Deleted")
    else
      match jsonBody with
      | some err => (false, "Failed to delete: " ++ pyStr err)
      | none => (false, "Failed to delete: " ++ text)

/-- Aggregate result of the save loop: the `updates` and `problems`
counters of src/app.py lines 462-487, plus the trace of `patch_card`
invocations (card id and change set), which models the network effect. -/
structure SaveResult where
  updates : Nat
  problems : Nat
  calls : List (String × List (String × Value))
deriving DecidableEq, Repr

/-- One iteration of the save loop (src/app.py lines 464-487): compute the
change set of the row; if non-empty, patch the card at the id of this row and tally
the outcome. -/
def save_step (net : String → List (String × Value) → HttpOutcome)
    (cols : List String) (ids : List String) (orig edited : List Row)
    (acc : SaveResult) (i : Nat) : SaveResult :=
  let change_set := rowChangeSet cols (orig.getD i []) (edited.getD i [])
  if change_set.isEmpty then acc
  else
    let card_id := ids.getD i ""
    let res := patch_card (net card_id) change_set
    { updates := acc.updates + (if res.fst then 1 else 0)
      problems := acc.problems + (if res.fst then 0 else 1)
      calls := acc.calls ++ [(card_id, change_set)] }

/-- The save-clicked reconciliation loop (src/app.py lines 461-487):
iterate the row indices in ascending order from zero counters and an empty
call trace. `net card_id` is the network behaviour of the PATCH for that
card. -/
def save_clicked (net : String → List (String × Value) → HttpOutcome)
    (cols : List String) (ids : List String) (orig edited : List Row) : SaveResult :=
  (List.range edited.length).foldl (save_step net cols ids orig edited)
    { updates := 0, problems := 0, calls := [] }

/-
Bulk read (src/app.py lines 73-81). The JSON body can be an arbitrary
JSON value; only objects, arrays and strings matter to the code paths.
-/

/-- A JSON value, as returned by `resp.json()` for the bulk read. -/
inductive JValue where
  | obj (kvs : List (String × JValue)) : JValue
  | arr (xs : List JValue) : JValue
  | str (s : String) : JValue
  | null : JValue

/-- Python `dict` key lookup on a parsed JSON object (keys unique). -/
def jget (kvs : List (String × JValue)) (k : String) : Option JValue :=
  match kvs with
  | [] => none
  | (k0, v0) :: rest => if k0 = k then some v0 else jget rest k

/-- Outcome of the bulk-read GET: a status with parsed body (none when
`resp.json()` raises), or a transport fault. -/
inductive FetchOutcome where
  | ok (status : Nat) (body : Option JValue) : FetchOutcome
  | fault (msg : String) : FetchOutcome

/-- Source `fetch_all_cards` (src/app.py lines 73-81) applied to the
outcome of its GET: `raise_for_status` raises for 4xx/5xx and the except
branch returns the empty list, as it does for transport faults and
unparsable bodies; otherwise the result is `data.get("data", data)` for a
dict body and the body itself for any other body. -/
def fetch_all_cards (outcome : FetchOutcome) : JValue :=
  match outcome with
  | FetchOutcome.fault _ => JValue.arr []
  | FetchOutcome.ok status body =>
    if 400 ≤ status ∧ status < 600 then JValue.arr []
    else
      match body with
      | none => JValue.arr []
      | some (JValue.obj kvs) =>
        match jget kvs "data" with
        | some d => d
        | none => JValue.obj kvs
      | some data => data

example : rowChangeSet ["name", "phone_numbers"]
    [("name", Value.str "Alice"), ("phone_numbers", Value.str "1,2")]
    [("name", Value.str "Alicia"), ("phone_numbers", Value.str "1,2")]
    = [("name", Value.str "Alicia")] := by decide

example : snapshotDiff ["name"]
    [[("name", Value.str "a")]] [[("name", Value.str "b")]]
    = [(0, [("name", Value.str "b")])] := by decide

/-
Helper lemmas: membership characterizations of the diff, the payload
cleaner, and the save loop.
-/

lemma mem_rowChangeSet {cols : List String} {o n : Row} {k : String} {v : Value} :
    (k, v) ∈ rowChangeSet cols o n ↔
      k ∈ cols ∧
      pyStr (naToEmpty (getCell o k)) ≠ pyStr (naToEmpty (getCell n k)) ∧
      v = changeValue k (naToEmpty (getCell n k)) := by
  unfold rowChangeSet
  rw [List.mem_filterMap]
  constructor
  · rintro ⟨c, hc, hfc⟩
    by_cases h : pyStr (naToEmpty (getCell o c)) = pyStr (naToEmpty (getCell n c))
    · rw [if_pos h] at hfc
      exact Option.noConfusion hfc
    · rw [if_neg h] at hfc
      have hkv : c = k ∧ changeValue c (naToEmpty (getCell n c)) = v := by
        simpa using hfc
      obtain ⟨hk, hv⟩ := hkv
      subst hk
      exact ⟨hc, h, hv.symm⟩
  · rintro ⟨hk, hne, hv⟩
    exact ⟨k, hk, by rw [if_neg hne, hv]⟩

lemma rowChangeSet_key_mem {cols : List String} {o n : Row} {k : String} {v : Value}
    (h : (k, v) ∈ rowChangeSet cols o n) : k ∈ cols :=
  (mem_rowChangeSet.mp h).1

lemma rowChangeSet_self (cols : List String) (r : Row) :
    rowChangeSet cols r r = [] := by
  unfold rowChangeSet
  rw [List.filterMap_eq_nil_iff]
  intro c _
  simp

lemma mem_clean_payload {p : List (String × Value)} {k : String} {v : Value} :
    (k, v) ∈ _clean_payload_for_backend p ↔
      ∃ v0, (k, v0) ∈ p ∧ v0 ≠ Value.null ∧ isBlankString v0 = false ∧
        v = cleanValue k v0 := by
  unfold _clean_payload_for_backend
  rw [List.mem_filterMap]
  constructor
  · rintro ⟨⟨k0, v0⟩, hmem, hfc⟩
    simp only [clean_entry] at hfc
    split at hfc
    · exact Option.noConfusion hfc
    · split at hfc
      · exact Option.noConfusion hfc
      · rename_i h0 h1
        have hkv : k0 = k ∧ cleanValue k0 v0 = v := by simpa using hfc
        obtain ⟨hk, hv⟩ := hkv
        subst hk
        exact ⟨v0, hmem, h0, by simpa using h1, hv.symm⟩
  · rintro ⟨v0, hmem, h0, h1, hv⟩
    refine ⟨(k, v0), hmem, ?_⟩
    simp only [clean_entry]
    rw [if_neg h0, if_neg (by simp [h1]), hv]

lemma mem_snapshotDiff {cols : List String} {orig edited : List Row}
    {i : Nat} {cs : List (String × Value)} :
    (i, cs) ∈ snapshotDiff cols orig edited ↔
      i < edited.length ∧ cs ≠ [] ∧
      cs = rowChangeSet cols (orig.getD i []) (edited.getD i []) := by
  unfold snapshotDiff
  rw [List.mem_filterMap]
  constructor
  · rintro ⟨j, hj, hfj⟩
    simp only [diff_entry] at hfj
    split at hfj
    · exact Option.noConfusion hfj
    · rename_i hne
      have hkv : j = i ∧ rowChangeSet cols (orig.getD j []) (edited.getD j []) = cs := by
        simpa using hfj
      obtain ⟨hj2, hcs⟩ := hkv
      subst hj2
      refine ⟨List.mem_range.mp hj, ?_, hcs.symm⟩
      rw [hcs] at hne
      simpa using hne
  · rintro ⟨hi, hne, hcs⟩
    refine ⟨i, List.mem_range.mpr hi, ?_⟩
    simp only [diff_entry]
    rw [← hcs, if_neg (by simpa using hne)]

/-- Whether the PATCH for one diff entry succeeds under network behaviour
`net` with identifier list `ids`. -/
def call_ok (net : String → List (String × Value) → HttpOutcome) (ids : List String)
    (p : Nat × List (String × Value)) : Bool :=
  (patch_card (net (ids.getD p.fst "")) p.snd).fst

lemma save_foldl_eq (net : String → List (String × Value) → HttpOutcome)
    (cols : List String) (ids : List String) (orig edited : List Row)
    (l : List Nat) : ∀ acc : SaveResult,
    l.foldl (save_step net cols ids orig edited) acc =
      { updates := acc.updates +
          ((l.filterMap (diff_entry cols orig edited)).filter (call_ok net ids)).length
        problems := acc.problems +
          ((l.filterMap (diff_entry cols orig edited)).filter
            (fun p => !(call_ok net ids p))).length
        calls := acc.calls ++
          (l.filterMap (diff_entry cols orig edited)).map
            (fun p => (ids.getD p.fst "", p.snd)) } := by
  induction l with
  | nil => intro acc; simp
  | cons i l IH =>
    intro acc
    rw [List.foldl_cons, IH]
    by_cases h : rowChangeSet cols (orig.getD i []) (edited.getD i []) = []
    · have h' : (rowChangeSet cols (orig.getD i []) (edited.getD i [])).isEmpty = true := by
        rw [h]; rfl
      have hd : diff_entry cols orig edited i = none := by
        simp only [diff_entry]; rw [if_pos h']
      have hfm : List.filterMap (diff_entry cols orig edited) (i :: l)
          = List.filterMap (diff_entry cols orig edited) l := by
        rw [List.filterMap_cons, hd]
      have hs : save_step net cols ids orig edited acc i = acc := by
        simp only [save_step]; rw [if_pos h']
      rw [hs, hfm]
    · have h' : (rowChangeSet cols (orig.getD i []) (edited.getD i [])).isEmpty = false := by
        cases hrc : rowChangeSet cols (orig.getD i []) (edited.getD i []) with
        | nil => exact absurd hrc h
        | cons a t => rfl
      have hne : ¬((rowChangeSet cols (orig.getD i []) (edited.getD i [])).isEmpty = true) := by
        rw [h']; simp
      have hd : diff_entry cols orig edited i
          = some (i, rowChangeSet cols (orig.getD i []) (edited.getD i [])) := by
        simp only [diff_entry]; rw [if_neg hne]
      have hfm : List.filterMap (diff_entry cols orig edited) (i :: l)
          = (i, rowChangeSet cols (orig.getD i []) (edited.getD i []))
            :: List.filterMap (diff_entry cols orig edited) l := by
        rw [List.filterMap_cons, hd]
      by_cases hb : (patch_card (net (ids.getD i ""))
          (rowChangeSet cols (orig.getD i []) (edited.getD i []))).fst
      · have hok : call_ok net ids (i, rowChangeSet cols (orig.getD i []) (edited.getD i []))
            = true := hb
        have hs : save_step net cols ids orig edited acc i =
            { updates := acc.updates + 1, problems := acc.problems,
              calls := acc.calls ++
                [(ids.getD i "", rowChangeSet cols (orig.getD i []) (edited.getD i []))] } := by
          simp only [save_step]
          rw [if_neg hne, hb]
          simp
        rw [hs, hfm]
        simp only [List.filter_cons, List.map_cons]
        rw [hok]
        simp [List.append_assoc]
        omega
      · have hb' : (patch_card (net (ids.getD i ""))
            (rowChangeSet cols (orig.getD i []) (edited.getD i []))).fst = false :=
          Bool.eq_false_iff.mpr hb
        have hok : call_ok net ids (i, rowChangeSet cols (orig.getD i []) (edited.getD i []))
            = false := hb'
        have hs : save_step net cols ids orig edited acc i =
            { updates := acc.updates, problems := acc.problems + 1,
              calls := acc.calls ++
                [(ids.getD i "", rowChangeSet cols (orig.getD i []) (edited.getD i []))] } := by
          simp only [save_step]
          rw [if_neg hne, hb']
          simp
        rw [hs, hfm]
        simp only [List.filter_cons, List.map_cons]
        rw [hok]
        simp [List.append_assoc]
        omega

/-
Character-level lemmas about the Python split / strip / join embedding,
leading to the round-trip law of the Field Codec.
-/

lemma splitCommaChars_ne_nil (cs : List Char) : splitCommaChars cs ≠ [] := by
  cases cs with
  | nil => simp [splitCommaChars]
  | cons c rest =>
    simp only [splitCommaChars]
    cases hr : splitCommaChars rest with
    | nil => simp
    | cons h t =>
      by_cases hc : c = ','
      · simp [hc]
      · simp [hc]

lemma splitCommaChars_comma (cs : List Char) :
    splitCommaChars (',' :: cs) = [] :: splitCommaChars cs := by
  simp only [splitCommaChars]
  cases hr : splitCommaChars cs with
  | nil => exact absurd hr (splitCommaChars_ne_nil cs)
  | cons h t => simp

lemma splitCommaChars_append {a cs h : List Char} {t : List (List Char)}
    (ha : ',' ∉ a) (hcs : splitCommaChars cs = h :: t) :
    splitCommaChars (a ++ cs) = (a ++ h) :: t := by
  induction a with
  | nil => simpa using hcs
  | cons c a IH =>
    have hc : ¬(c = ',') := by
      intro e
      exact ha (by simp [e])
    have ha' : ',' ∉ a := fun hm => ha (List.mem_cons_of_mem _ hm)
    have IH' := IH ha'
    have hstep : (c :: a) ++ cs = c :: (a ++ cs) := rfl
    rw [hstep, splitCommaChars, IH']
    simp [hc]

lemma stripChars_space_cons {c : Char} (hc : isPySpace c = true) (cs : List Char) :
    stripChars (c :: cs) = stripChars cs := by
  simp [stripChars, List.dropWhile_cons, hc]

/-- The fragment post-processing of `csv_str_to_list`, at the character
level: keep the fragments that strip to something non-empty, stripped. -/
def cleanPieces (ps : List (List Char)) : List (List Char) :=
  (ps.filter (fun cs => !(stripChars cs).isEmpty)).map stripChars

lemma cleanPieces_cons_keep {x : List Char} (h1 : stripChars x = x) (h2 : x ≠ [])
    (ps : List (List Char)) : cleanPieces (x :: ps) = x :: cleanPieces ps := by
  simp [cleanPieces, List.filter_cons, h1, h2]

lemma cleanPieces_space {c : Char} (hc : isPySpace c = true) (h0 : List Char)
    (ps : List (List Char)) :
    cleanPieces ((c :: h0) :: ps) = cleanPieces (h0 :: ps) := by
  by_cases hk : (stripChars h0).isEmpty
  · simp [cleanPieces, List.filter_cons, stripChars_space_cons hc, hk]
  · simp [cleanPieces, List.filter_cons, stripChars_space_cons hc, hk]

lemma roundtripChars (L : List (List Char))
    (hcond : ∀ x ∈ L, x ≠ [] ∧ ',' ∉ x ∧ stripChars x = x) :
    cleanPieces (splitCommaChars (joinChars L)) = L := by
  induction L with
  | nil => rfl
  | cons x L IH =>
    obtain ⟨hxne, hxc, hxs⟩ := hcond x (List.mem_cons_self _ _)
    have hcond' : ∀ y ∈ L, y ≠ [] ∧ ',' ∉ y ∧ stripChars y = y :=
      fun y hy => hcond y (List.mem_cons_of_mem _ hy)
    cases L with
    | nil =>
      have hsp : splitCommaChars x = [x] := by
        have h0 : splitCommaChars ([] : List Char) = [] :: [] := rfl
        have hap := splitCommaChars_append hxc h0
        simpa using hap
      show cleanPieces (splitCommaChars (joinChars [x])) = [x]
      have hj : joinChars [x] = x := rfl
      rw [hj, hsp, cleanPieces_cons_keep hxs hxne]
      rfl
    | cons y M =>
      obtain ⟨h0, t0, hsp0⟩ : ∃ h0 t0, splitCommaChars (joinChars (y :: M)) = h0 :: t0 := by
        cases hr : splitCommaChars (joinChars (y :: M)) with
        | nil => exact absurd hr (splitCommaChars_ne_nil _)
        | cons a b => exact ⟨a, b, rfl⟩
      have hsp1 : splitCommaChars (' ' :: joinChars (y :: M)) = (' ' :: h0) :: t0 := by
        have hap := splitCommaChars_append (a := [' ']) (by simp) hsp0
        simpa using hap
      have hsp2 : splitCommaChars (',' :: ' ' :: joinChars (y :: M))
          = [] :: (' ' :: h0) :: t0 := by
        rw [splitCommaChars_comma, hsp1]
      have hsp3 : splitCommaChars (x ++ ',' :: ' ' :: joinChars (y :: M))
          = (x ++ []) :: (' ' :: h0) :: t0 := splitCommaChars_append hxc hsp2
      have hIH : cleanPieces (h0 :: t0) = y :: M := by
        rw [← hsp0]
        exact IH hcond'
      have hjoin : joinChars (x :: y :: M) = x ++ ',' :: ' ' :: joinChars (y :: M) := rfl
      rw [hjoin, hsp3, List.append_nil, cleanPieces_cons_keep hxs hxne,
        cleanPieces_space (by rfl) h0 t0, hIH]

/-- The save loop, characterised through the table diff: every diff entry
is attempted in ascending order (the call trace is the diff mapped to ids),
and successes and failures are counted separately. -/
lemma save_clicked_eq (net : String → List (String × Value) → HttpOutcome)
    (cols : List String) (ids : List String) (orig edited : List Row) :
    save_clicked net cols ids orig edited =
      { updates := ((snapshotDiff cols orig edited).filter (call_ok net ids)).length
        problems := ((snapshotDiff cols orig edited).filter
          (fun p => !(call_ok net ids p))).length
        calls := (snapshotDiff cols orig edited).map
          (fun p => (ids.getD p.fst "", p.snd)) } := by
  unfold save_clicked snapshotDiff
  rw [save_foldl_eq]
  simp

/-
The claim theorems.
-/

/-- C3: for every list of non-empty strings containing no commas and no
leading or trailing whitespace, `csv_str_to_list (list_to_csv_str L) = L`:
the text codec round-trips such lists exactly. -/
theorem csv_roundtrip_law (L : List String)
    (h : ∀ x ∈ L, x ≠ "" ∧ ',' ∉ x.data ∧ stripChars x.data = x.data) :
    csv_str_to_list (list_to_csv_str (Value.list L)) = L := by
  have hchars : ∀ y ∈ L.map String.data, y ≠ [] ∧ ',' ∉ y ∧ stripChars y = y := by
    intro y hy
    obtain ⟨x, hx, rfl⟩ := List.mem_map.mp hy
    obtain ⟨h1, h2, h3⟩ := h x hx
    refine ⟨?_, h2, h3⟩
    intro he
    apply h1
    cases x with
    | mk d =>
      simp only at he
      rw [he]
  have hrt := roundtripChars (L.map String.data) hchars
  show ((splitCommaChars (joinChars (L.map String.data))).filter
      (fun cs => !(stripChars cs).isEmpty)).map (fun cs => String.mk (stripChars cs)) = L
  have hsplit : ((splitCommaChars (joinChars (L.map String.data))).filter
      (fun cs => !(stripChars cs).isEmpty)).map (fun cs => String.mk (stripChars cs))
      = (cleanPieces (splitCommaChars (joinChars (L.map String.data)))).map String.mk := by
    rw [cleanPieces, List.map_map]
    rfl
  rw [hsplit, hrt, List.map_map]
  have hid : ∀ x : String, String.mk x.data = x := by
    intro x
    cases x with
    | mk d => rfl
  calc L.map (String.mk ∘ String.data)
      = L.map id := List.map_congr_left (fun x _ => hid x)
    _ = L := List.map_id L

/-- C3 witness: the round-trip law applied to the concrete list
`["123", "456"]`. -/
theorem csv_roundtrip_law_witness :
    csv_str_to_list (list_to_csv_str (Value.list ["123", "456"])) = ["123", "456"] :=
  csv_roundtrip_law ["123", "456"] (by decide)

/-- C1: the save-time diff emits, for each row, exactly those columns whose
stringified (missing-as-empty) original and edited values differ, with the
new value routed through `csv_str_to_list` for the two list-typed fields
and taken verbatim otherwise; on the concrete snapshots with name
Alice→Alicia and unchanged phone_numbers the diff is exactly
[(0, {name: Alicia})]; and diffing any well-formed snapshot against itself
yields the empty change list. -/
theorem diff_engine_change_scoping :
    (snapshotDiff ["name", "phone_numbers"]
        [[("name", Value.str "Alice"), ("phone_numbers", Value.str "1,2")]]
        [[("name", Value.str "Alicia"), ("phone_numbers", Value.str "1,2")]]
      = [(0, [("name", Value.str "Alicia")])])
    ∧ (∀ (cols : List String) (rows : List Row), snapshotDiff cols rows rows = [])
    ∧ (∀ (cols : List String) (o n : Row) (k : String) (v : Value),
        (k, v) ∈ rowChangeSet cols o n ↔
          k ∈ cols ∧
          pyStr (naToEmpty (getCell o k)) ≠ pyStr (naToEmpty (getCell n k)) ∧
          v = changeValue k (naToEmpty (getCell n k))) := by
  refine ⟨by decide, ?_, ?_⟩
  · intro cols rows
    unfold snapshotDiff
    rw [List.filterMap_eq_nil_iff]
    intro i _
    simp [diff_entry, rowChangeSet_self]
  · intro cols o n k v
    exact mem_rowChangeSet

/-- C1 witness: the membership characterization applied to a concrete
one-column diff with a changed name. -/
theorem diff_engine_change_scoping_witness :
    ("name", Value.str "y") ∈
      rowChangeSet ["name"] [("name", Value.str "x")] [("name", Value.str "y")] :=
  (diff_engine_change_scoping.2.2 ["name"] [("name", Value.str "x")]
    [("name", Value.str "y")] "name" (Value.str "y")).mpr
    ⟨by decide, by decide, by decide⟩

/-- C2: `_clean_payload_for_backend` keeps exactly the entries that are
neither null nor blank strings, coercing the two list-typed fields through
`csv_str_to_list` when not already lists and passing every other value
through unchanged; with the two concrete examples from the spec. -/
theorem sanitize_payload_spec :
    (_clean_payload_for_backend
        [("name", Value.str ""), ("company", Value.null), ("email", Value.str "a@b.com")]
      = [("email", Value.str "a@b.com")])
    ∧ (_clean_payload_for_backend [("phone_numbers", Value.str "123, 456 ,, 789")]
      = [("phone_numbers", Value.list ["123", "456", "789"])])
    ∧ (∀ (p : List (String × Value)) (k : String) (v : Value),
        (k, v) ∈ _clean_payload_for_backend p ↔
          ∃ v0, (k, v0) ∈ p ∧ v0 ≠ Value.null ∧ isBlankString v0 = false ∧
            v = cleanValue k v0) := by
  refine ⟨by decide, by decide, ?_⟩
  intro p k v
  exact mem_clean_payload

/-- C2 witness: the characterization applied to the first concrete example,
showing the email entry survives sanitation. -/
theorem sanitize_payload_spec_witness :
    ("email", Value.str "a@b.com") ∈ _clean_payload_for_backend
      [("name", Value.str ""), ("company", Value.null), ("email", Value.str "a@b.com")] :=
  (sanitize_payload_spec.2.2
      [("name", Value.str ""), ("company", Value.null), ("email", Value.str "a@b.com")]
      "email" (Value.str "a@b.com")).mpr
    ⟨Value.str "a@b.com", by decide, by decide, by decide, by decide⟩

/-- C4: the save-time diff iterates the display columns, from which `_id`
is dropped, so no change set it produces ever contains the identifier
field, even when `_id` is present in the fetched column set. -/
theorem identifier_never_in_change_set (cols : List String) (orig edited : List Row)
    (i : Nat) (cs : List (String × Value))
    (hmem : (i, cs) ∈ snapshotDiff (display_columns cols) orig edited)
    (v : Value) : ("_id", v) ∉ cs := by
  intro hin
  obtain ⟨-, -, hcs⟩ := mem_snapshotDiff.mp hmem
  rw [hcs] at hin
  have hk := rowChangeSet_key_mem hin
  unfold display_columns at hk
  have hfilter := List.of_mem_filter hk
  simp at hfilter

/-- C4 witness: the theorem applied to a concrete snapshot pair whose
column set contains `_id`, with a changed name. -/
theorem identifier_never_in_change_set_witness :
    ("_id", Value.str "1") ∉ [("name", Value.str "b")] :=
  identifier_never_in_change_set ["_id", "name"]
    [[("_id", Value.str "1"), ("name", Value.str "a")]]
    [[("_id", Value.str "1"), ("name", Value.str "b")]]
    0 [("name", Value.str "b")] (by decide) (Value.str "1")

/-- C5 counterexample: the display frame keeps `created_at` editable and
the diff loop does not protect it, so editing that cell produces a change
set containing `created_at`, which the save loop then transmits to the
backend in a PATCH payload. -/
theorem timestamps_can_enter_change_set :
    snapshotDiff (display_columns ["_id", "created_at"])
        [[("_id", Value.str "1"), ("created_at", Value.str "2020-01-01")]]
        [[("_id", Value.str "1"), ("created_at", Value.str "2021-09-09")]]
      = [(0, [("created_at", Value.str "2021-09-09")])]
    ∧ (save_clicked (fun _ _ => HttpOutcome.response 200 none "")
        (display_columns ["_id", "created_at"]) ["1"]
        [[("_id", Value.str "1"), ("created_at", Value.str "2020-01-01")]]
        [[("_id", Value.str "1"), ("created_at", Value.str "2021-09-09")]]).calls
      = [("1", [("created_at", Value.str "2021-09-09")])] := by
  exact ⟨by decide, by decide⟩

/-- C5 amended: when the original and edited snapshots agree (stringified,
missing-as-empty) on the `created_at` and `edited_at` columns of every row
— i.e. the user did not edit the timestamp cells — no change set produced
by the diff contains either field, and no sanitized update payload built
from such a change set contains either field. -/
theorem timestamps_not_written_when_unedited (cols : List String)
    (orig edited : List Row)
    (hagree : ∀ i, i < edited.length → ∀ c ∈ ["created_at", "edited_at"],
      pyStr (naToEmpty (getCell (orig.getD i []) c))
        = pyStr (naToEmpty (getCell (edited.getD i []) c)))
    (i : Nat) (cs : List (String × Value))
    (hmem : (i, cs) ∈ snapshotDiff cols orig edited)
    (c : String) (hc : c ∈ ["created_at", "edited_at"]) (v : Value) :
    (c, v) ∉ cs ∧ (c, v) ∉ _clean_payload_for_backend cs := by
  obtain ⟨hlen, -, hcs⟩ := mem_snapshotDiff.mp hmem
  have hkey : ∀ w : Value, (c, w) ∉ cs := by
    intro w hw
    rw [hcs] at hw
    obtain ⟨-, hne, -⟩ := mem_rowChangeSet.mp hw
    exact hne (hagree i hlen c hc)
  refine ⟨hkey v, ?_⟩
  intro hin
  obtain ⟨v0, hv0, -, -, -⟩ := mem_clean_payload.mp hin
  exact hkey v0 hv0

/-- C5 amended witness: a concrete snapshot pair with an edited name and
untouched timestamps; the change set and its sanitized payload contain no
`created_at` entry. -/
theorem timestamps_not_written_when_unedited_witness :
    ("created_at", Value.str "2020-01-01") ∉ [("name", Value.str "b")]
    ∧ ("created_at", Value.str "2020-01-01")
      ∉ _clean_payload_for_backend [("name", Value.str "b")] :=
  timestamps_not_written_when_unedited ["name", "created_at"]
    [[("name", Value.str "a"), ("created_at", Value.str "2020-01-01")]]
    [[("name", Value.str "b"), ("created_at", Value.str "2020-01-01")]]
    (by decide) 0 [("name", Value.str "b")] (by decide)
    "created_at" (by decide) (Value.str "2020-01-01")

/-- C6: the update and delete operations of the Backend Client never raise:
every HTTP outcome, including transport faults and unparsable bodies, maps
to a (success, message) pair; update succeeds exactly on status 200 or 201
and delete exactly on status 200 or 204, and a transport fault yields
`(false, message)` for both. -/
theorem backend_client_fault_handling :
    (∀ (net : List (String × Value) → HttpOutcome) (payload : List (String × Value)),
      (patch_card net payload).fst = true ↔
        ∃ s b t, net (_clean_payload_for_backend payload) = HttpOutcome.response s b t
          ∧ (s = 200 ∨ s = 201))
    ∧ (∀ outcome : HttpOutcome,
      (delete_card outcome).fst = true ↔
        ∃ s b t, outcome = HttpOutcome.response s b t ∧ (s = 200 ∨ s = 204))
    ∧ (∀ (net : List (String × Value) → HttpOutcome) (payload : List (String × Value)) e,
        net (_clean_payload_for_backend payload) = HttpOutcome.fault e →
        patch_card net payload = (false, e))
    ∧ (∀ e, delete_card (HttpOutcome.fault e) = (false, e)) := by
  refine ⟨?_, ?_, ?_, ?_⟩
  · intro net payload
    cases hout : net (_clean_payload_for_backend payload) with
    | fault e => simp [patch_card, hout]
    | response s b t =>
      by_cases hs : s = 200 ∨ s = 201
      · simp [patch_card, hout, hs]
      · cases b with
        | none => simp [patch_card, hout, hs]
        | some err => simp [patch_card, hout, hs]
  · intro outcome
    cases outcome with
    | fault e => simp [delete_card]
    | response s b t =>
      by_cases hs : s = 200 ∨ s = 204
      · simp [delete_card, hs]
      · cases b with
        | none => simp [delete_card, hs]
        | some err => simp [delete_card, hs]
  · intro net payload e hout
    simp [patch_card, hout]
  · intro e
    rfl

/-- C6 witness: a 200 response makes the update succeed. -/
theorem backend_client_fault_handling_witness :
    (patch_card (fun _ => HttpOutcome.response 200 none "") []).fst = true :=
  (backend_client_fault_handling.1 (fun _ => HttpOutcome.response 200 none "") []).mpr
    ⟨200, none, "", rfl, Or.inl rfl⟩

/-- C7: the save loop attempts every changed row in ascending row order —
the call trace equals the diff mapped to identifiers, no matter which calls
fail — and counts successes and failures separately; in the concrete
three-changed-rows scenario where the backend fails only on the second
card, it reports 2 updates and 1 problem with all three rows attempted. -/
theorem driver_accumulates_failures :
    (∀ (net : String → List (String × Value) → HttpOutcome)
        (cols ids : List String) (orig edited : List Row),
      (save_clicked net cols ids orig edited).calls
          = (snapshotDiff cols orig edited).map (fun p => (ids.getD p.fst "", p.snd))
        ∧ (save_clicked net cols ids orig edited).updates
          = ((snapshotDiff cols orig edited).filter (call_ok net ids)).length
        ∧ (save_clicked net cols ids orig edited).problems
          = ((snapshotDiff cols orig edited).filter
              (fun p => !(call_ok net ids p))).length)
    ∧ ((save_clicked
          (fun id _ => if id = "B" then HttpOutcome.response 500 none "server error"
            else HttpOutcome.response 200 none "")
          ["name"] ["A", "B", "C"]
          [[("name", Value.str "a")], [("name", Value.str "b")], [("name", Value.str "c")]]
          [[("name", Value.str "d")], [("name", Value.str "e")], [("name", Value.str "f")]])
        = { updates := 2, problems := 1,
            calls := [("A", [("name", Value.str "d")]),
                      ("B", [("name", Value.str "e")]),
                      ("C", [("name", Value.str "f")])] }) := by
  constructor
  · intro net cols ids orig edited
    rw [save_clicked_eq]
    exact ⟨rfl, rfl, rfl⟩
  · decide

/-- C8: an empty diff short-circuits: the save loop performs zero PATCH
calls and reports zero updates and zero problems. -/
theorem empty_diff_short_circuits (net : String → List (String × Value) → HttpOutcome)
    (cols ids : List String) (orig edited : List Row)
    (hempty : snapshotDiff cols orig edited = []) :
    save_clicked net cols ids orig edited
      = { updates := 0, problems := 0, calls := [] } := by
  rw [save_clicked_eq, hempty]
  rfl

/-- C8 witness: saving an unchanged snapshot issues no calls even when the
backend is unreachable. -/
theorem empty_diff_short_circuits_witness :
    save_clicked (fun _ _ => HttpOutcome.fault "backend down") ["name"] ["1"]
        [[("name", Value.str "a")]] [[("name", Value.str "a")]]
      = { updates := 0, problems := 0, calls := [] } :=
  empty_diff_short_circuits (fun _ _ => HttpOutcome.fault "backend down")
    ["name"] ["1"] [[("name", Value.str "a")]] [[("name", Value.str "a")]] (by decide)

/-- C9 counterexample: on a success response whose dict body is missing the
"data" key, `fetch_all_cards` returns the parsed dict itself — Python
`data.get("data", data)` defaults to `data` — not an empty result. -/
theorem missing_data_key_returns_body :
    fetch_all_cards (FetchOutcome.ok 200 (some (JValue.obj [("items", JValue.arr [])])))
      = JValue.obj [("items", JValue.arr [])]
    ∧ fetch_all_cards (FetchOutcome.ok 200 (some (JValue.obj [("items", JValue.arr [])])))
      ≠ JValue.arr [] :=
  ⟨rfl, fun h => JValue.noConfusion h⟩

/-- C9 amended: a success response whose dict body is missing the "data"
key is not raised as an error: `fetch_all_cards` falls back to returning
the parsed body itself in place of the data list (so an empty-object body
behaves as an empty result), while transport faults, error statuses and
unparsable bodies yield the empty list. -/
theorem missing_data_key_soft_fallback (status : Nat) (kvs : List (String × JValue))
    (hstatus : status < 400) (hmiss : jget kvs "data" = none) :
    fetch_all_cards (FetchOutcome.ok status (some (JValue.obj kvs))) = JValue.obj kvs := by
  simp only [fetch_all_cards]
  rw [if_neg (by omega)]
  show (match jget kvs "data" with
    | some d => d
    | none => JValue.obj kvs) = JValue.obj kvs
  rw [hmiss]

/-- C9 amended witness: the fallback at a concrete dict body without a
"data" key. -/
theorem missing_data_key_soft_fallback_witness :
    fetch_all_cards (FetchOutcome.ok 201 (some (JValue.obj [("rows", JValue.null)])))
      = JValue.obj [("rows", JValue.null)] :=
  missing_data_key_soft_fallback 201 [("rows", JValue.null)] (by decide) rfl

/-- C10: when a change set records a scalar column cleared to the empty
string, the sanitation applied inside `patch_card` removes that column from
the request body, so the issued update omits the cleared field entirely —
while the save loop still issues the PATCH for that row, the change set
being non-empty. -/
theorem cleared_scalar_field_omitted
    (net : String → List (String × Value) → HttpOutcome)
    (cols ids : List String) (orig edited : List Row) (i : Nat) (k : String)
    (hcell : (k, Value.str "") ∈ rowChangeSet cols (orig.getD i []) (edited.getD i []))
    (hrow : i < edited.length) (v : Value) :
    (k, v) ∉ _clean_payload_for_backend
        (rowChangeSet cols (orig.getD i []) (edited.getD i []))
    ∧ (ids.getD i "", rowChangeSet cols (orig.getD i []) (edited.getD i []))
      ∈ (save_clicked net cols ids orig edited).calls := by
  constructor
  · intro hin
    obtain ⟨v0, hv0, -, hnb, -⟩ := mem_clean_payload.mp hin
    have h1 := (mem_rowChangeSet.mp hcell).2.2
    have h2 := (mem_rowChangeSet.mp hv0).2.2
    rw [← h1] at h2
    rw [h2] at hnb
    exact absurd hnb (by decide)
  · have hmem : (i, rowChangeSet cols (orig.getD i []) (edited.getD i []))
        ∈ snapshotDiff cols orig edited :=
      mem_snapshotDiff.mpr ⟨hrow, List.ne_nil_of_mem hcell, rfl⟩
    rw [save_clicked_eq]
    exact List.mem_map.mpr ⟨_, hmem, rfl⟩

/-- C10 witness: clearing the name cell of a one-row snapshot yields a
non-empty change set whose sanitized payload is empty of the name field,
and the PATCH for that row is still issued. -/
theorem cleared_scalar_field_omitted_witness :
    ("name", Value.str "x") ∉ _clean_payload_for_backend
        (rowChangeSet ["name"] [("name", Value.str "a")] [("name", Value.str "")])
    ∧ ("7", rowChangeSet ["name"] [("name", Value.str "a")] [("name", Value.str "")])
      ∈ (save_clicked (fun _ _ => HttpOutcome.response 200 none "") ["name"] ["7"]
          [[("name", Value.str "a")]] [[("name", Value.str "")]]).calls :=
  cleared_scalar_field_omitted (fun _ _ => HttpOutcome.response 200 none "")
    ["name"] ["7"] [[("name", Value.str "a")]] [[("name", Value.str "")]] 0 "name"
    (by decide) (by decide) (Value.str "x")
